import Mathlib

/-!
Verification of the submission-store backend (server.ts), the client retry
loop (App.tsx) and the analysis gateway (geminiService.ts) of the
bloom-sync repository, against its natural-language specification.

JavaScript values persisted in the JSON store are modelled by `JVal`;
a submission record is a JavaScript object, modelled as an association
list of fields in insertion order (`JObj`).
-/

/-- A JSON / JavaScript value as it appears in the db.json store. -/
inductive JVal where
  | jnull : JVal
  | jbool : Bool → JVal
  | jnum : Int → JVal
  | jstr : String → JVal
  | jarr : List JVal → JVal
  | jobj : List (String × JVal) → JVal

/-- A submission record: a JavaScript object, fields in insertion order. -/
abbrev JObj := List (String × JVal)

/-- Property read `s.k`: the first binding of key `k`; `none` means
JavaScript `undefined` (objects built by the program have no duplicate keys). -/
def getField : JObj → String → Option JVal
  | [], _ => none
  | (k, v) :: rest, key => if k = key then some v else getField rest key

/-- Property write `s.k = v` (also the effect of a later key in an object
literal after a spread): overwrites the value at the first occurrence of the
key, keeping its position, or appends the key at the end if absent. -/
def setField : JObj → String → JVal → JObj
  | [], k, v => [(k, v)]
  | (k1, v1) :: rest, k, v =>
      if k1 = k then (k, v) :: rest else (k1, v1) :: setField rest k v

theorem getField_setField_same (s : JObj) (k : String) (v : JVal) :
    getField (setField s k v) k = some v := by
  induction s with
  | nil => simp [getField, setField]
  | cons hd tl ih =>
      obtain ⟨k1, v1⟩ := hd
      by_cases h : k1 = k
      · simp [getField, setField, h]
      · simp [getField, setField, h, ih]

theorem getField_setField_other (s : JObj) (k k2 : String) (v : JVal)
    (hne : k2 ≠ k) : getField (setField s k v) k2 = getField s k2 := by
  have hne2 : k ≠ k2 := fun h => hne (Eq.symm h)
  induction s with
  | nil => simp [getField, setField, hne2]
  | cons hd tl ih =>
      obtain ⟨k1, v1⟩ := hd
      by_cases h : k1 = k
      · simp [getField, setField, h, hne2]
      · by_cases h2 : k1 = k2 <;> simp [getField, setField, h, h2, hne, ih]

/-! ## The server store (server.ts)

The backing file db.json, as the request handlers see it: it can be
missing, can fail to parse as JSON, or parse as the document shape
`submissions: [...]` that the server itself always writes. -/

/-- State of the db.json backing file. -/
inductive StoreFile where
  | missing : StoreFile
  | unparseable : StoreFile
  | store : List JObj → StoreFile

/-- An HTTP response: `res.status(n).json(body)` (the bare `res.json` is
status 200). -/
inductive ApiResult where
  | json : Nat → JVal → ApiResult

/-- JavaScript strict equality `v === t` of a property value against a
string literal, with `none` standing for `undefined`. -/
def strEq (v : Option JVal) (t : String) : Bool :=
  match v with
  | some (.jstr u) => u == t
  | _ => false

/-- JavaScript falsiness of `s.choice` as tested by `!s.choice`:
`undefined`, `null`, `false`, `0` and the empty string are falsy. -/
def falsy (v : Option JVal) : Bool :=
  match v with
  | none => true
  | some .jnull => true
  | some (.jbool b) => !b
  | some (.jnum n) => n == 0
  | some (.jstr u) => u == ""
  | some (.jarr _) => false
  | some (.jobj _) => false

/-- Count of submissions with `s.riskLevel === level`. -/
def countRisk (subs : List JObj) (level : String) : Nat :=
  (subs.filter (fun s => strEq (getField s "riskLevel") level)).length

/-- Count of submissions with `s.choice === v`. -/
def countChoice (subs : List JObj) (v : String) : Nat :=
  (subs.filter (fun s => strEq (getField s "choice") v)).length

/-- Count of submissions with a falsy `choice` (the `none` bucket). -/
def countNoChoice (subs : List JObj) : Nat :=
  (subs.filter (fun s => falsy (getField s "choice"))).length

mutual

/-- JavaScript string coercion `String(v)` of a JSON value. -/
def jsKeyStr : JVal → String
  | .jnull => "null"
  | .jbool b => if b then "true" else "false"
  | .jnum n => toString n
  | .jstr u => u
  | .jarr xs => jsKeyList xs
  | .jobj _ => "[object Object]"

/-- Array-to-string coercion: coerced elements joined with commas, with
`null` elements coercing to the empty string. -/
def jsKeyList : List JVal → String
  | [] => ""
  | x :: rest =>
      (match x with
       | .jnull => ""
       | y => jsKeyStr y) ++
      (match rest with
       | [] => ""
       | _ => "," ++ jsKeyList rest)

end

/-- Coercion of a property value to an object key, as in `acc[s.crop]`,
with `none` standing for a missing property (`undefined`). -/
def jsKeyString (v : Option JVal) : String :=
  match v with
  | none => "undefined"
  | some x => jsKeyStr x

/-- One step of the `byCrop` reduce: `acc[key] = (acc[key] || 0) + 1`
(the accumulator only ever holds numeric values). -/
def bumpCrop (acc : JObj) (key : String) : JObj :=
  match getField acc key with
  | some (.jnum m) => setField acc key (.jnum (if m = 0 then 1 else m + 1))
  | _ => setField acc key (.jnum 1)

/-- The `byCrop` accumulator: `subs.reduce((acc, s) => ..., ` on an
initially empty object. -/
def byCrop (subs : List JObj) : JObj :=
  subs.foldl (fun acc s => bumpCrop acc (jsKeyString (getField s "crop"))) []

/-- The stats object computed by GET /api/admin/stats from a parsed store. -/
def statsOf (subs : List JObj) : JVal :=
  .jobj [
    ("total", .jnum subs.length),
    ("byRisk", .jobj [
      ("high", .jnum (countRisk subs "high")),
      ("medium", .jnum (countRisk subs "medium")),
      ("low", .jnum (countRisk subs "low"))]),
    ("byChoice", .jobj [
      ("change", .jnum (countChoice subs "A")),
      ("continue", .jnum (countChoice subs "B")),
      ("none", .jnum (countNoChoice subs))]),
    ("byCrop", .jobj (byCrop subs))]

/-- GET /api/admin/stats handler: a missing file answers a literal shape
with empty bucket objects; a parse failure is caught and answered 500;
otherwise the stats are computed from the submissions array. -/
def statsHandler : StoreFile → ApiResult
  | .missing => .json 200 (.jobj [
      ("total", .jnum 0), ("byRisk", .jobj []),
      ("byChoice", .jobj []), ("byCrop", .jobj [])])
  | .unparseable => .json 500 (.jobj [("error", .jstr "Failed to get stats")])
  | .store subs => .json 200 (statsOf subs)

/-- GET /api/submissions handler: missing file answers an empty array,
a parse failure is caught and answered 500, otherwise the submissions
array is returned. -/
def listHandler : StoreFile → ApiResult
  | .missing => .json 200 (.jarr [])
  | .unparseable => .json 500 (.jobj [("error", .jstr "Failed to read database")])
  | .store subs => .json 200 (.jarr (subs.map .jobj))

/-- DELETE /api/submissions handler: rewrites the file to an empty
document and confirms. -/
def clearHandler (_f : StoreFile) : StoreFile × ApiResult :=
  (.store [], .json 200 (.jobj [("message", .jstr "History cleared")]))

/-- Lookup-and-update of the PATCH handler body: `data.submissions.find`
on `s.id === id` followed by `sub.choice = choice` on the found record.
Returns the updated array together with the updated record, or `none`
when no record matches. -/
def updateChoiceGo (subs : List JObj) (id : String) (choice : JVal) :
    Option (List JObj × JObj) :=
  match subs with
  | [] => none
  | s :: rest =>
      if strEq (getField s "id") id then
        some (setField s "choice" choice :: rest, setField s "choice" choice)
      else
        match updateChoiceGo rest id choice with
        | none => none
        | some (rest2, sub2) => some (s :: rest2, sub2)

/-- PATCH /api/submissions/:id/choice handler: reading a missing or
unparseable file throws and is caught as a 500; on a parsed store a
matching record gets its `choice` set and is echoed back, and an absent
id answers 404 with the file untouched. -/
def patchHandler (f : StoreFile) (id : String) (choice : JVal) :
    StoreFile × ApiResult :=
  match f with
  | .missing => (f, .json 500 (.jobj [("error", .jstr "Failed to update choice")]))
  | .unparseable => (f, .json 500 (.jobj [("error", .jstr "Failed to update choice")]))
  | .store subs =>
      match updateChoiceGo subs id choice with
      | some (subs2, sub2) => (.store subs2, .json 200 (.jobj sub2))
      | none => (.store subs, .json 404 (.jobj [("error", .jstr "Submission not found")]))

/-- The record built by the POST handler: the request body spread into an
object literal, then `id`, `timestamp` and `choice` assigned by the
server (overriding any same-named body fields). -/
def newSubmission (body : JObj) (freshId : String) (now : Int) : JObj :=
  setField (setField (setField body "id" (.jstr freshId))
    "timestamp" (.jnum now)) "choice" .jnull

/-- POST /api/submissions handler: a missing file is read as an empty
document, a parse failure is caught as a 500, otherwise the new record is
appended and echoed back with status 201. The random id token and the
`Date.now()` clock reading are oracle inputs. -/
def postHandler (f : StoreFile) (body : JObj) (freshId : String) (now : Int) :
    StoreFile × ApiResult :=
  match f with
  | .missing =>
      let s := newSubmission body freshId now
      (.store [s], .json 201 (.jobj s))
  | .unparseable => (f, .json 500 (.jobj [("error", .jstr "Failed to save submission")]))
  | .store subs =>
      let s := newSubmission body freshId now
      (.store (subs ++ [s]), .json 201 (.jobj s))

/-! ## The client retry loop (App.tsx, fetchSubmissions) -/

/-- Outcome of one run of `fetchSubmissions`: either some attempt
succeeded and the submissions were stored in view state, or every attempt
failed and the loop ended in the log-only catch branch. -/
inductive FetchOutcome where
  | success : Nat → FetchOutcome
  | gaveUp : FetchOutcome

/-- The backoff delay scheduled in the catch branch when `retries`
remain: `(6 - retries) * 2000` milliseconds. -/
def retryDelay (retries : Nat) : Nat := (6 - retries) * 2000

/-- One run of `fetchSubmissions`, with `ok r` an oracle saying whether
the attempt made with `r` retries remaining succeeds. Returns the outcome
and the list of backoff delays scheduled along the way. The catch branch
only logs and (when retries remain) schedules the next attempt; no error
state is ever produced. -/
def fetchSubmissionsRun (ok : Nat → Bool) : Nat → FetchOutcome × List Nat
  | 0 => if ok 0 then (.success 0, []) else (.gaveUp, [])
  | r + 1 =>
      if ok (r + 1) then (.success (r + 1), [])
      else
        let rest := fetchSubmissionsRun ok r
        (rest.1, retryDelay (r + 1) :: rest.2)

/-! ## The analysis gateway (geminiService.ts) -/

/-- Grounding source data inside a grounding chunk. -/
structure WebInfo where
  title : String
  uri : String

/-- A grounding chunk: `c.web` may be absent. -/
structure Chunk where
  web : Option WebInfo

/-- Outcome of the `generateContent` call made by `analyzeCropMismatch`
and `extractDetailsFromVoice`, combined with how `JSON.parse` fares on
`response.text || "\x7b\x7d"`: the call can reject, the text can be
absent (so the fallback string parses to an empty object), the text can
fail to parse, or it parses to a JSON value (with the optional grounding
chunks of the response alongside). -/
inductive GenCall where
  | reject : GenCall
  | textAbsent : Option (List Chunk) → GenCall
  | textUnparseable : Option (List Chunk) → GenCall
  | textParsed : JVal → Option (List Chunk) → GenCall

/-- The grounding-sources step of `analyzeCropMismatch`: when chunks are
present, `result.sources` is set to the web chunks mapped to
title/url records; otherwise the parsed result is returned as is. -/
def addSources (v : JVal) (chunks : Option (List Chunk)) : JVal :=
  match chunks with
  | none => v
  | some cs =>
      let sources := JVal.jarr (cs.filterMap (fun c =>
        c.web.map (fun w => JVal.jobj [("title", .jstr w.title), ("url", .jstr w.uri)])))
      match v with
      | .jobj fields => .jobj (setField fields "sources" sources)
      | other => other

/-- The body of `analyzeCropMismatch` after the prompt is built: no
try/catch, so a rejected model call or a JSON.parse failure propagates to
the caller (modelled as `Except.error`); otherwise the parsed result,
with grounding sources attached, is returned. -/
def analyzeCropMismatch : GenCall → Except Unit JVal
  | .reject => .error ()
  | .textAbsent chunks => .ok (addSources (.jobj []) chunks)
  | .textUnparseable _ => .error ()
  | .textParsed v chunks => .ok (addSources v chunks)

/-- The body of `extractDetailsFromVoice` after the prompt is built:
the whole body sits in a try/catch whose catch logs and returns the empty
object, so a rejected call or a parse failure yields the empty object. -/
def extractDetailsFromVoice : GenCall → JVal
  | .reject => .jobj []
  | .textAbsent _ => .jobj []
  | .textUnparseable _ => .jobj []
  | .textParsed v _ => v

/-- Shape of a TTS response as `generateSpeech` reads it:
`response.candidates?.[0]?.content?.parts?.[0]?.inlineData?.data`, every
link of the optional chain possibly absent. -/
structure TTSInline where
  data : Option String

structure TTSPart where
  inlineData : Option TTSInline

structure TTSContent where
  parts : List TTSPart

structure TTSCandidate where
  content : Option TTSContent

structure TTSResponse where
  candidates : Option (List TTSCandidate)

/-- Outcome of the TTS model call made by `generateSpeech`. -/
inductive TTSCall where
  | reject : TTSCall
  | ok : TTSResponse → TTSCall

/-- The optional chain of `generateSpeech` over a resolved response. -/
def speechData (r : TTSResponse) : Option String :=
  ((((r.candidates.bind List.head?).bind TTSCandidate.content).bind
    (fun c => c.parts.head?)).bind TTSPart.inlineData).bind TTSInline.data

/-- The body of `generateSpeech`: the whole body sits in a try/catch whose
catch logs and returns `undefined`, and a malformed response walks the
optional chain to `undefined`. -/
def generateSpeech : TTSCall → Option String
  | .reject => none
  | .ok r => speechData r

/-! ## Helper lemmas -/

theorem strEq_true_iff (v : Option JVal) (t : String) :
    strEq v t = true ↔ v = some (.jstr t) := by
  cases v with
  | none => simp [strEq]
  | some x => cases x <;> simp [strEq]

theorem setField_idem (s : JObj) (k : String) (v : JVal) :
    setField (setField s k v) k v = setField s k v := by
  induction s with
  | nil => simp [setField]
  | cons hd tl ih =>
      obtain ⟨k1, v1⟩ := hd
      by_cases h : k1 = k <;> simp [setField, h, ih]

/-! ## C2 -/

/-- C2 counterexample: on a backing file whose contents do not parse as
JSON, GET /api/submissions answers a 500 error body, not the empty
submissions array the claim promises. -/
theorem list_parse_failure_cex :
    listHandler StoreFile.unparseable
        = ApiResult.json 500 (.jobj [("error", .jstr "Failed to read database")]) ∧
      listHandler StoreFile.unparseable ≠ ApiResult.json 200 (.jarr []) := by
  constructor
  · rfl
  · intro h
    simp [listHandler] at h

/-- C2 amended: a missing backing file yields the empty submissions
array, but an unparseable backing file yields a 500 error response (the
parse error is caught, the process survives); a parsed store is returned
as is. -/
theorem list_read_failures :
    listHandler StoreFile.missing = ApiResult.json 200 (.jarr []) ∧
      listHandler StoreFile.unparseable
        = ApiResult.json 500 (.jobj [("error", .jstr "Failed to read database")]) ∧
      ∀ subs, listHandler (StoreFile.store subs) = ApiResult.json 200 (.jarr (subs.map .jobj)) :=
  ⟨rfl, rfl, fun _ => rfl⟩

/-! ## C5 -/

/-- C5 counterexample: with the backing file missing, GET /api/admin/stats
answers a shape whose byRisk and byChoice buckets are empty objects, not
the fully zeroed shape the claim promises. -/
theorem stats_missing_file_cex :
    statsHandler StoreFile.missing
        = ApiResult.json 200 (.jobj [
            ("total", .jnum 0), ("byRisk", .jobj []),
            ("byChoice", .jobj []), ("byCrop", .jobj [])]) ∧
      statsHandler StoreFile.missing
        ≠ ApiResult.json 200 (.jobj [
            ("total", .jnum 0),
            ("byRisk", .jobj [("high", .jnum 0), ("medium", .jnum 0), ("low", .jnum 0)]),
            ("byChoice", .jobj [("change", .jnum 0), ("continue", .jnum 0), ("none", .jnum 0)]),
            ("byCrop", .jobj [])]) := by
  constructor
  · rfl
  · intro h
    simp [statsHandler] at h

/-- C5 amended: after clear(), list() is empty and aggregate() computes
exactly the zeroed stats shape, and clear() is idempotent; when the
backing file is missing, GET /api/admin/stats still answers 200 with zero
total but with empty byRisk and byChoice bucket objects rather than
zero-valued ones. -/
theorem clear_then_zero_stats :
    (∀ f, listHandler (clearHandler f).1 = ApiResult.json 200 (.jarr [])) ∧
      (∀ f, statsHandler (clearHandler f).1
        = ApiResult.json 200 (.jobj [
            ("total", .jnum 0),
            ("byRisk", .jobj [("high", .jnum 0), ("medium", .jnum 0), ("low", .jnum 0)]),
            ("byChoice", .jobj [("change", .jnum 0), ("continue", .jnum 0), ("none", .jnum 0)]),
            ("byCrop", .jobj [])])) ∧
      (∀ f, clearHandler (clearHandler f).1 = clearHandler f) ∧
      statsHandler StoreFile.missing
        = ApiResult.json 200 (.jobj [
            ("total", .jnum 0), ("byRisk", .jobj []),
            ("byChoice", .jobj []), ("byCrop", .jobj [])]) :=
  ⟨fun _ => rfl, fun _ => rfl, fun _ => rfl, rfl⟩

/-! ## C10 -/

/-- C10: generateSpeech and extractDetailsFromVoice never propagate an
internal failure to the caller (a rejected model call or a malformed or
unparseable response yields undefined, respectively the empty object),
whereas analyzeCropMismatch propagates both a rejected call and a JSON
parse failure as errors. -/
theorem gateway_error_policy :
    generateSpeech TTSCall.reject = none ∧
      (∀ r : TTSResponse, r.candidates = none → generateSpeech (TTSCall.ok r) = none) ∧
      extractDetailsFromVoice GenCall.reject = .jobj [] ∧
      (∀ ch, extractDetailsFromVoice (GenCall.textUnparseable ch) = .jobj []) ∧
      analyzeCropMismatch GenCall.reject = Except.error () ∧
      (∀ ch, analyzeCropMismatch (GenCall.textUnparseable ch) = Except.error ()) := by
  refine ⟨rfl, ?_, rfl, fun _ => rfl, rfl, fun _ => rfl⟩
  intro r h
  simp [generateSpeech, speechData, h]

/-- C10 witness: the error policy at concrete failing inputs. -/
theorem gateway_error_policy_witness :
    generateSpeech (TTSCall.ok ⟨none⟩) = none ∧
      extractDetailsFromVoice GenCall.reject = .jobj [] ∧
      analyzeCropMismatch GenCall.reject = Except.error () :=
  ⟨gateway_error_policy.2.1 ⟨none⟩ rfl,
   gateway_error_policy.2.2.1,
   gateway_error_policy.2.2.2.2.1⟩

/-! ## C3 -/

theorem updateChoiceGo_none (subs : List JObj) (id : String) (c : JVal)
    (h : ∀ s ∈ subs, strEq (getField s "id") id = false) :
    updateChoiceGo subs id c = none := by
  induction subs with
  | nil => rfl
  | cons s rest ih =>
      have hs := h s (List.mem_cons_self s rest)
      have hrest : ∀ t ∈ rest, strEq (getField t "id") id = false :=
        fun t ht => h t (List.mem_cons_of_mem s ht)
      simp [updateChoiceGo, hs, ih hrest]

/-- C3: a PATCH of the choice of an id matching no record in the store
answers 404 and leaves the backing store exactly as it was (same array,
same records; in particular no record is created). -/
theorem updateChoice_absent_id_notFound (subs : List JObj) (id : String) (c : JVal)
    (h : ∀ s ∈ subs, strEq (getField s "id") id = false) :
    patchHandler (StoreFile.store subs) id c
      = (StoreFile.store subs,
         ApiResult.json 404 (.jobj [("error", .jstr "Submission not found")])) := by
  simp [patchHandler, updateChoiceGo_none subs id c h]

/-- C3 witness: a store with one record and a non-matching id. -/
theorem updateChoice_absent_id_notFound_witness :
    patchHandler (StoreFile.store [[("id", JVal.jstr "abc"), ("choice", JVal.jnull)]]) "zzz"
        (JVal.jstr "A")
      = (StoreFile.store [[("id", JVal.jstr "abc"), ("choice", JVal.jnull)]],
         ApiResult.json 404 (.jobj [("error", .jstr "Submission not found")])) :=
  updateChoice_absent_id_notFound _ _ _ (by
    intro s hs
    simp only [List.mem_singleton] at hs
    subst hs
    rfl)

/-! ## C4 -/

theorem newSubmission_id (body : JObj) (freshId : String) (now : Int) :
    getField (newSubmission body freshId now) "id" = some (.jstr freshId) := by
  unfold newSubmission
  rw [getField_setField_other _ _ _ _ (by decide),
    getField_setField_other _ _ _ _ (by decide),
    getField_setField_same]

theorem newSubmission_timestamp (body : JObj) (freshId : String) (now : Int) :
    getField (newSubmission body freshId now) "timestamp" = some (.jnum now) := by
  unfold newSubmission
  rw [getField_setField_other _ _ _ _ (by decide), getField_setField_same]

theorem newSubmission_choice (body : JObj) (freshId : String) (now : Int) :
    getField (newSubmission body freshId now) "choice" = some .jnull := by
  unfold newSubmission
  rw [getField_setField_same]

/-- C4: a POST on a parsed store with a fresh random token and a clock
reading taken no earlier than the time before the call answers 201 with
the stored record; that record carries the server-assigned id, timestamp
and null choice; the store afterwards holds exactly one more record, the
new record's id differs from every prior id, its timestamp is at least
the pre-call time, and a subsequent list returns the grown array. -/
theorem append_creates_submission (subs : List JObj) (body : JObj)
    (freshId : String) (now t0 : Int)
    (hfresh : ∀ s ∈ subs, strEq (getField s "id") freshId = false)
    (hclock : t0 ≤ now) :
    postHandler (StoreFile.store subs) body freshId now
        = (StoreFile.store (subs ++ [newSubmission body freshId now]),
           ApiResult.json 201 (.jobj (newSubmission body freshId now))) ∧
      getField (newSubmission body freshId now) "id" = some (.jstr freshId) ∧
      getField (newSubmission body freshId now) "timestamp" = some (.jnum now) ∧
      getField (newSubmission body freshId now) "choice" = some .jnull ∧
      (subs ++ [newSubmission body freshId now]).length = subs.length + 1 ∧
      (∀ s ∈ subs, getField s "id" ≠ getField (newSubmission body freshId now) "id") ∧
      listHandler (StoreFile.store (subs ++ [newSubmission body freshId now]))
        = ApiResult.json 200 (.jarr ((subs ++ [newSubmission body freshId now]).map .jobj)) ∧
      (∃ ts : Int, getField (newSubmission body freshId now) "timestamp"
        = some (.jnum ts) ∧ t0 ≤ ts) := by
  refine ⟨rfl, newSubmission_id body freshId now, newSubmission_timestamp body freshId now,
    newSubmission_choice body freshId now, by simp, ?_, rfl,
    now, newSubmission_timestamp body freshId now, hclock⟩
  intro s hs heq
  have hfalse := hfresh s hs
  rw [heq, newSubmission_id body freshId now] at hfalse
  simp [strEq] at hfalse

/-- C4 witness: appending a Mango submission to a one-record store. -/
theorem append_creates_submission_witness :
    postHandler (StoreFile.store [[("id", JVal.jstr "a1")]])
        [("crop", JVal.jstr "Mango")] "b2" 10
      = (StoreFile.store [[("id", JVal.jstr "a1")],
          [("crop", JVal.jstr "Mango"), ("id", JVal.jstr "b2"),
           ("timestamp", JVal.jnum 10), ("choice", JVal.jnull)]],
         ApiResult.json 201 (.jobj
          [("crop", JVal.jstr "Mango"), ("id", JVal.jstr "b2"),
           ("timestamp", JVal.jnum 10), ("choice", JVal.jnull)])) ∧
      (∀ s ∈ [[("id", JVal.jstr "a1")]],
        getField s "id" ≠ getField (newSubmission [("crop", JVal.jstr "Mango")] "b2" 10) "id") :=
  ⟨(append_creates_submission [[("id", JVal.jstr "a1")]] [("crop", JVal.jstr "Mango")]
      "b2" 10 5 (by
        intro s hs
        simp only [List.mem_singleton] at hs
        subst hs
        rfl) (by norm_num)).1,
   (append_creates_submission [[("id", JVal.jstr "a1")]] [("crop", JVal.jstr "Mango")]
      "b2" 10 5 (by
        intro s hs
        simp only [List.mem_singleton] at hs
        subst hs
        rfl) (by norm_num)).2.2.2.2.2.1⟩

/-! ## C6 -/

/-- How a record may differ across one PATCH: only its choice field can
change, and a record whose id does not match the patched id is identical
before and after. -/
def choiceOnlyDiff (id : String) (s t : JObj) : Prop :=
  (∀ k, k ≠ "choice" → getField t k = getField s k) ∧
  (strEq (getField s "id") id = false → t = s)

theorem updateChoiceGo_forall2 (id : String) (c : JVal) :
    ∀ subs subs2 sub2, updateChoiceGo subs id c = some (subs2, sub2) →
      List.Forall₂ (choiceOnlyDiff id) subs subs2 := by
  intro subs
  induction subs with
  | nil =>
      intro subs2 sub2 h
      simp [updateChoiceGo] at h
  | cons s rest ih =>
      intro subs2 sub2 h
      cases hid : strEq (getField s "id") id with
      | true =>
          rw [updateChoiceGo, hid] at h
          simp only [if_true] at h
          injection h with h2
          cases h2
          refine List.Forall₂.cons
            ⟨fun k hk => getField_setField_other s "choice" k c hk,
             fun hf => by rw [hid] at hf; cases hf⟩ ?_
          rw [List.forall₂_same]
          exact fun t _ => ⟨fun _ _ => rfl, fun _ => rfl⟩
      | false =>
          rw [updateChoiceGo, hid] at h
          simp only [Bool.false_eq_true, if_false] at h
          cases hr : updateChoiceGo rest id c with
          | none => rw [hr] at h; cases h
          | some p =>
              obtain ⟨rest2, t2⟩ := p
              rw [hr] at h
              injection h with h2
              cases h2
              exact List.Forall₂.cons ⟨fun _ _ => rfl, fun _ => rfl⟩ (ih _ _ hr)

/-- C6 counterexample: PATCH accepts any choice value without validation:
patching the stored record with the string X stores choice = X, a value
outside the set A, B, null demanded by the claim. -/
theorem choice_unvalidated_cex :
    patchHandler (StoreFile.store [[("id", JVal.jstr "a"), ("choice", JVal.jnull)]])
        "a" (JVal.jstr "X")
      = (StoreFile.store [[("id", JVal.jstr "a"), ("choice", JVal.jstr "X")]],
         ApiResult.json 200 (.jobj [("id", JVal.jstr "a"), ("choice", JVal.jstr "X")])) ∧
      getField [("id", JVal.jstr "a"), ("choice", JVal.jstr "X")] "choice"
        = some (JVal.jstr "X") ∧
      JVal.jstr "X" ≠ JVal.jnull ∧ JVal.jstr "X" ≠ JVal.jstr "A" ∧
      JVal.jstr "X" ≠ JVal.jstr "B" := by
  refine ⟨rfl, rfl, ?_, ?_, ?_⟩ <;> simp

/-- C6 amended: a submission's choice starts as null (the POST handler
assigns choice = null), and a PATCH mutates only the choice field of the
single matching record, leaving every record with a non-matching id
untouched; the stored choice value, however, is whatever the request
supplied, not restricted to A, B or null. -/
theorem choice_mutation_only (body : JObj) (i : String) (n : Int)
    (subs subs2 : List JObj) (id : String) (c : JVal) (sub2 : JObj) :
    getField (newSubmission body i n) "choice" = some .jnull ∧
      (updateChoiceGo subs id c = some (subs2, sub2) →
        List.Forall₂ (choiceOnlyDiff id) subs subs2) :=
  ⟨newSubmission_choice body i n, updateChoiceGo_forall2 id c subs subs2 sub2⟩

/-- C6 witness: the amended claim at a concrete store where the PATCH
finds its record. -/
theorem choice_mutation_only_witness :
    getField (newSubmission [] "x" 0) "choice" = some JVal.jnull ∧
      List.Forall₂ (choiceOnlyDiff "a")
        [[("id", JVal.jstr "a")], [("id", JVal.jstr "b")]]
        [[("id", JVal.jstr "a"), ("choice", JVal.jstr "A")], [("id", JVal.jstr "b")]] :=
  ⟨(choice_mutation_only [] "x" 0 [[("id", JVal.jstr "a")], [("id", JVal.jstr "b")]]
      [[("id", JVal.jstr "a"), ("choice", JVal.jstr "A")], [("id", JVal.jstr "b")]]
      "a" (JVal.jstr "A")
      [("id", JVal.jstr "a"), ("choice", JVal.jstr "A")]).1,
   (choice_mutation_only [] "x" 0 [[("id", JVal.jstr "a")], [("id", JVal.jstr "b")]]
      [[("id", JVal.jstr "a"), ("choice", JVal.jstr "A")], [("id", JVal.jstr "b")]]
      "a" (JVal.jstr "A")
      [("id", JVal.jstr "a"), ("choice", JVal.jstr "A")]).2 rfl⟩

/-! ## C7 -/

/-- C7: on a store containing a record with the given id, a PATCH of
choice A followed by a PATCH of choice B both succeed, the record ends
with choice = B, and repeating the B PATCH returns the very same store
and record again (idempotent last write wins). -/
theorem updateChoice_last_write_wins (subs : List JObj) (id : String)
    (h : ∃ s ∈ subs, strEq (getField s "id") id = true) :
    ∃ subs1 sub1 subs2 sub2,
      updateChoiceGo subs id (.jstr "A") = some (subs1, sub1) ∧
      updateChoiceGo subs1 id (.jstr "B") = some (subs2, sub2) ∧
      getField sub2 "choice" = some (.jstr "B") ∧
      updateChoiceGo subs2 id (.jstr "B") = some (subs2, sub2) := by
  induction subs with
  | nil => simp at h
  | cons s rest ih =>
      by_cases hid : strEq (getField s "id") id = true
      · refine ⟨setField s "choice" (.jstr "A") :: rest, setField s "choice" (.jstr "A"),
          setField (setField s "choice" (.jstr "A")) "choice" (.jstr "B") :: rest,
          setField (setField s "choice" (.jstr "A")) "choice" (.jstr "B"),
          ?_, ?_, getField_setField_same _ _ _, ?_⟩
        · simp [updateChoiceGo, hid]
        · have hid1 : strEq (getField (setField s "choice" (.jstr "A")) "id") id = true := by
            rw [getField_setField_other _ _ _ _ (by decide)]
            exact hid
          simp [updateChoiceGo, hid1]
        · have hid2 : strEq (getField (setField (setField s "choice" (.jstr "A"))
              "choice" (.jstr "B")) "id") id = true := by
            rw [getField_setField_other _ _ _ _ (by decide),
              getField_setField_other _ _ _ _ (by decide)]
            exact hid
          simp [updateChoiceGo, hid2, setField_idem]
      · have hidf : strEq (getField s "id") id = false := by
          cases hb : strEq (getField s "id") id
          · rfl
          · exact absurd hb hid
        have hrest : ∃ t ∈ rest, strEq (getField t "id") id = true := by
          obtain ⟨t, ht, htEq⟩ := h
          rcases List.mem_cons.mp ht with rfl | htr
          · exact absurd htEq hid
          · exact ⟨t, htr, htEq⟩
        obtain ⟨rest1, sub1, rest2, sub2, e1, e2, e3, e4⟩ := ih hrest
        refine ⟨s :: rest1, sub1, s :: rest2, sub2, ?_, ?_, e3, ?_⟩
        · simp [updateChoiceGo, hidf, e1]
        · simp [updateChoiceGo, hidf, e2]
        · simp [updateChoiceGo, hidf, e4]

/-- C7 witness: the A-then-B sequence on a concrete two-record store. -/
theorem updateChoice_last_write_wins_witness :
    ∃ subs1 sub1 subs2 sub2,
      updateChoiceGo [[("id", JVal.jstr "s1"), ("choice", JVal.jnull)],
          [("id", JVal.jstr "s2")]] "s1" (.jstr "A") = some (subs1, sub1) ∧
      updateChoiceGo subs1 "s1" (.jstr "B") = some (subs2, sub2) ∧
      getField sub2 "choice" = some (.jstr "B") ∧
      updateChoiceGo subs2 "s1" (.jstr "B") = some (subs2, sub2) :=
  updateChoice_last_write_wins _ "s1"
    ⟨[("id", JVal.jstr "s1"), ("choice", JVal.jnull)], List.mem_cons_self _ _, rfl⟩

/-! ## C1 -/

theorem countRisk_cons (s : JObj) (rest : List JObj) (l : String) :
    countRisk (s :: rest) l
      = countRisk rest l + (if strEq (getField s "riskLevel") l = true then 1 else 0) := by
  by_cases h : strEq (getField s "riskLevel") l = true <;>
    simp [countRisk, List.filter_cons, h]

theorem countChoice_cons (s : JObj) (rest : List JObj) (v : String) :
    countChoice (s :: rest) v
      = countChoice rest v + (if strEq (getField s "choice") v = true then 1 else 0) := by
  by_cases h : strEq (getField s "choice") v = true <;>
    simp [countChoice, List.filter_cons, h]

theorem countNoChoice_cons (s : JObj) (rest : List JObj) :
    countNoChoice (s :: rest)
      = countNoChoice rest + (if falsy (getField s "choice") = true then 1 else 0) := by
  by_cases h : falsy (getField s "choice") = true <;>
    simp [countNoChoice, List.filter_cons, h]

theorem risk_indicator (v : Option JVal)
    (h : strEq v "high" = true ∨ strEq v "medium" = true ∨ strEq v "low" = true) :
    (if strEq v "high" = true then 1 else 0) + (if strEq v "medium" = true then 1 else 0)
      + (if strEq v "low" = true then 1 else 0) = 1 := by
  rcases h with h | h | h <;> rw [strEq_true_iff] at h <;> subst h <;> decide

theorem choice_indicator (v : Option JVal)
    (h : strEq v "A" = true ∨ strEq v "B" = true ∨ falsy v = true) :
    (if strEq v "A" = true then 1 else 0) + (if strEq v "B" = true then 1 else 0)
      + (if falsy v = true then 1 else 0) = 1 := by
  rcases h with h | h | h
  · rw [strEq_true_iff] at h
    subst h
    decide
  · rw [strEq_true_iff] at h
    subst h
    decide
  · cases v with
    | none => decide
    | some x =>
        cases x with
        | jnull => decide
        | jbool b =>
            cases b
            · decide
            · simp [falsy] at h
        | jnum n =>
            have hn : n = 0 := by simpa [falsy] using h
            subst hn
            decide
        | jstr u =>
            have hu : u = "" := by simpa [falsy] using h
            subst hu
            decide
        | jarr xs => simp [falsy] at h
        | jobj fs => simp [falsy] at h

/-- C1 counterexample: a store holding one submission whose riskLevel is
the string severe and whose choice is the string C: the byRisk buckets
sum to 0 and the byChoice buckets sum to 0, while total is 1. -/
theorem aggregate_sums_cex :
    ¬(countRisk [[("riskLevel", JVal.jstr "severe"), ("choice", JVal.jstr "C")]] "high"
        + countRisk [[("riskLevel", JVal.jstr "severe"), ("choice", JVal.jstr "C")]] "medium"
        + countRisk [[("riskLevel", JVal.jstr "severe"), ("choice", JVal.jstr "C")]] "low"
        = [[("riskLevel", JVal.jstr "severe"), ("choice", JVal.jstr "C")]].length ∧
      countChoice [[("riskLevel", JVal.jstr "severe"), ("choice", JVal.jstr "C")]] "A"
        + countChoice [[("riskLevel", JVal.jstr "severe"), ("choice", JVal.jstr "C")]] "B"
        + countNoChoice [[("riskLevel", JVal.jstr "severe"), ("choice", JVal.jstr "C")]]
        = [[("riskLevel", JVal.jstr "severe"), ("choice", JVal.jstr "C")]].length) := by
  decide

/-- C1 amended: the aggregate sum invariant byRisk.high + byRisk.medium +
byRisk.low = total and byChoice.change + byChoice.continue +
byChoice.none = total holds for every store in which each submission's
riskLevel is one of the strings high, medium, low and each submission's
choice is the string A, the string B, or a falsy value (such as null or
absent); for other values the filters count nothing and the sums fall
short of total. -/
theorem aggregate_sums_eq_total (subs : List JObj)
    (h : ∀ s ∈ subs,
      (strEq (getField s "riskLevel") "high" = true
        ∨ strEq (getField s "riskLevel") "medium" = true
        ∨ strEq (getField s "riskLevel") "low" = true) ∧
      (strEq (getField s "choice") "A" = true
        ∨ strEq (getField s "choice") "B" = true
        ∨ falsy (getField s "choice") = true)) :
    countRisk subs "high" + countRisk subs "medium" + countRisk subs "low"
        = subs.length ∧
      countChoice subs "A" + countChoice subs "B" + countNoChoice subs
        = subs.length := by
  induction subs with
  | nil => exact ⟨rfl, rfl⟩
  | cons s rest ih =>
      have hs := h s (List.mem_cons_self s rest)
      have hrest : ∀ t ∈ rest, _ := fun t ht => h t (List.mem_cons_of_mem s ht)
      obtain ⟨ih1, ih2⟩ := ih hrest
      have hr := risk_indicator (getField s "riskLevel") hs.1
      have hc := choice_indicator (getField s "choice") hs.2
      rw [countRisk_cons, countRisk_cons, countRisk_cons, countChoice_cons,
        countChoice_cons, countNoChoice_cons, List.length_cons]
      exact ⟨by omega, by omega⟩

/-- C1 witness: the invariant on a concrete two-submission store with
in-range riskLevel and choice values. -/
theorem aggregate_sums_eq_total_witness :
    countRisk [[("riskLevel", JVal.jstr "high"), ("choice", JVal.jstr "A")],
        [("riskLevel", JVal.jstr "low"), ("choice", JVal.jnull)]] "high"
      + countRisk [[("riskLevel", JVal.jstr "high"), ("choice", JVal.jstr "A")],
        [("riskLevel", JVal.jstr "low"), ("choice", JVal.jnull)]] "medium"
      + countRisk [[("riskLevel", JVal.jstr "high"), ("choice", JVal.jstr "A")],
        [("riskLevel", JVal.jstr "low"), ("choice", JVal.jnull)]] "low"
      = [[("riskLevel", JVal.jstr "high"), ("choice", JVal.jstr "A")],
        [("riskLevel", JVal.jstr "low"), ("choice", JVal.jnull)]].length ∧
    countChoice [[("riskLevel", JVal.jstr "high"), ("choice", JVal.jstr "A")],
        [("riskLevel", JVal.jstr "low"), ("choice", JVal.jnull)]] "A"
      + countChoice [[("riskLevel", JVal.jstr "high"), ("choice", JVal.jstr "A")],
        [("riskLevel", JVal.jstr "low"), ("choice", JVal.jnull)]] "B"
      + countNoChoice [[("riskLevel", JVal.jstr "high"), ("choice", JVal.jstr "A")],
        [("riskLevel", JVal.jstr "low"), ("choice", JVal.jnull)]]
      = [[("riskLevel", JVal.jstr "high"), ("choice", JVal.jstr "A")],
        [("riskLevel", JVal.jstr "low"), ("choice", JVal.jnull)]].length :=
  aggregate_sums_eq_total _ (by decide)

/-! ## C9 -/

theorem newSubmission_other (b : JObj) (freshId : String) (now : Int) (k : String)
    (h1 : k ≠ "id") (h2 : k ≠ "timestamp") (h3 : k ≠ "choice") :
    getField (newSubmission b freshId now) k = getField b k := by
  unfold newSubmission
  rw [getField_setField_other _ _ _ _ h3, getField_setField_other _ _ _ _ h2,
    getField_setField_other _ _ _ _ h1]

/-- C9: the POST handler overrides any id, timestamp or choice field the
request body may carry: the stored record always has the server-assigned
id, timestamp and null choice; two bodies agreeing on every field other
than id, timestamp and choice produce field-for-field identical stored
records under the same random token and clock reading; and all other
body fields are stored verbatim. -/
theorem post_ignores_client_server_fields (b1 b2 : JObj) (freshId : String) (now : Int)
    (hagree : ∀ k, k ≠ "id" → k ≠ "timestamp" → k ≠ "choice" →
      getField b1 k = getField b2 k) :
    getField (newSubmission b1 freshId now) "id" = some (.jstr freshId) ∧
      getField (newSubmission b1 freshId now) "timestamp" = some (.jnum now) ∧
      getField (newSubmission b1 freshId now) "choice" = some .jnull ∧
      (∀ k, getField (newSubmission b1 freshId now) k
        = getField (newSubmission b2 freshId now) k) ∧
      (∀ k, k ≠ "id" → k ≠ "timestamp" → k ≠ "choice" →
        getField (newSubmission b1 freshId now) k = getField b1 k) := by
  refine ⟨newSubmission_id b1 freshId now, newSubmission_timestamp b1 freshId now,
    newSubmission_choice b1 freshId now, ?_, fun k => newSubmission_other b1 freshId now k⟩
  intro k
  by_cases h1 : k = "id"
  · subst h1
    rw [newSubmission_id, newSubmission_id]
  · by_cases h2 : k = "timestamp"
    · subst h2
      rw [newSubmission_timestamp, newSubmission_timestamp]
    · by_cases h3 : k = "choice"
      · subst h3
        rw [newSubmission_choice, newSubmission_choice]
      · rw [newSubmission_other b1 freshId now k h1 h2 h3,
          newSubmission_other b2 freshId now k h1 h2 h3, hagree k h1 h2 h3]

/-- C9 witness: a body smuggling an id and a body smuggling a timestamp,
agreeing on the crop field, produce identical stored records. -/
theorem post_ignores_client_server_fields_witness :
    getField (newSubmission [("id", JVal.jstr "evil"), ("crop", JVal.jstr "Mango")] "srv" 7)
        "id" = some (JVal.jstr "srv") ∧
      ∀ k, getField (newSubmission [("id", JVal.jstr "evil"), ("crop", JVal.jstr "Mango")]
          "srv" 7) k
        = getField (newSubmission [("crop", JVal.jstr "Mango"), ("timestamp", JVal.jnum 99)]
          "srv" 7) k := by
  have hagree : ∀ k, k ≠ "id" → k ≠ "timestamp" → k ≠ "choice" →
      getField [("id", JVal.jstr "evil"), ("crop", JVal.jstr "Mango")] k
        = getField [("crop", JVal.jstr "Mango"), ("timestamp", JVal.jnum 99)] k := by
    intro k h1 h2 h3
    have h1b : "id" ≠ k := fun h => h1 (Eq.symm h)
    have h2b : "timestamp" ≠ k := fun h => h2 (Eq.symm h)
    simp [getField, h1b, h2b]
  exact ⟨(post_ignores_client_server_fields _ _ "srv" 7 hagree).1,
    (post_ignores_client_server_fields _ _ "srv" 7 hagree).2.2.2.1⟩

/-! ## C8 -/

/-- C8: over any pattern of attempt failures, one run of fetchSubmissions
schedules at most 5 retries, each scheduled backoff delay strictly larger
than the one before it, and when every attempt fails the run ends in the
silent log-only give-up after scheduling exactly the delays 2000, 4000,
6000, 8000, 10000 milliseconds, surfacing no error. -/
theorem fetch_retry_policy (ok : Nat → Bool) :
    (fetchSubmissionsRun ok 5).2.length ≤ 5 ∧
      List.Chain' (fun a b => a < b) (fetchSubmissionsRun ok 5).2 ∧
      ((∀ r, ok r = false) →
        fetchSubmissionsRun ok 5 = (.gaveUp, [2000, 4000, 6000, 8000, 10000])) := by
  refine ⟨?_, ?_, ?_⟩
  · cases h5 : ok 5 <;> cases h4 : ok 4 <;> cases h3 : ok 3 <;> cases h2 : ok 2 <;>
      cases h1 : ok 1 <;> cases h0 : ok 0 <;>
      simp [fetchSubmissionsRun, retryDelay, h5, h4, h3, h2, h1, h0]
  · cases h5 : ok 5 <;> cases h4 : ok 4 <;> cases h3 : ok 3 <;> cases h2 : ok 2 <;>
      cases h1 : ok 1 <;> cases h0 : ok 0 <;>
      simp [fetchSubmissionsRun, retryDelay, h5, h4, h3, h2, h1, h0]
  · intro h
    simp [fetchSubmissionsRun, retryDelay, h]

/-- C8 witness: the all-failures run. -/
theorem fetch_retry_policy_witness :
    (fetchSubmissionsRun (fun _ => false) 5).2.length ≤ 5 ∧
      fetchSubmissionsRun (fun _ => false) 5
        = (.gaveUp, [2000, 4000, 6000, 8000, 10000]) :=
  ⟨(fetch_retry_policy (fun _ => false)).1,
   (fetch_retry_policy (fun _ => false)).2.2 (fun _ => rfl)⟩
